import Mathlib

/-!
Verification of `packages/plugin-hardhat/src/utils/deploy-impl.ts`
(the `getDeployData` / `deployProxyImpl` / `deployBeaconImpl` / `deployImpl`
pipeline of the upgrades plugin).

The orchestrator functions are embedded directly from the TypeScript source.
Each run yields an `Outcome`: the returned value (or the raised error), the
manifest state after the run, and a trace of the collaborator calls the run
performed, in order.  The collaborators imported from the core package
(`getVersion`, `getStorageLayout`, `getStorageLayoutForAddress`,
`assertUpgradeSafe`, `assertStorageUpgradeSafe`, `processProxyKind`,
`assertNotProxy`, `fetchOrDeployGetDeployment`) are not part of the sources
under verification; they are modelled from the specification at their
interface boundary, with their environment-dependent behaviour supplied by an
explicit `Env` record.
-/

namespace DeployImpl

/-- A network address (the embedding of an address string). -/
abbrev Address := Nat

/-- Contract bytecode, as a sequence of bytes. -/
abbrev Bytecode := List Nat

/-- Modelled from the spec: a `Version` is a content-addressed triple of
hashes over unlinked bytecode, linked bytecode and encoded constructor
arguments. -/
structure Version where
  withMetadata : Nat
  withoutMetadata : Nat
  linkedWithMetadata : Nat
  deriving DecidableEq, Repr

/-- A storage layout, opaque to the orchestrator (the layout-compatibility
rule set is a black-box policy input). -/
structure StorageLayout where
  tag : Nat
  deriving DecidableEq, Repr

/-- The proxy kinds. -/
inductive ProxyKind where
  | transparent
  | uups
  | beacon
  deriving DecidableEq, Repr

/-- Modelled from the spec: the validation-data snapshot, read-only, queried
through `getUnlinkedBytecode`, `getStorageLayout` and the safety findings that
`assertUpgradeSafe` reports. -/
structure ValidationDataCurrent where
  unlinkedOf : Bytecode → Bytecode
  layoutOfVersion : Version → StorageLayout
  safetyFindings : Version → List String

/-- The options surface consumed by the pipeline. -/
structure Options where
  constructorArgs : List Nat
  unsafeAllow : List String
  unsafeSkipStorageCheck : Bool
  kind : Option ProxyKind
  getTxResponse : Bool
  deriving DecidableEq, Repr

/-- The embedding of an ethers `ContractFactory`: its linked bytecode, its
constructor-argument ABI encoder, and its minimal-format ABI. -/
structure ContractFactory where
  bytecode : Bytecode
  encodeDeploy : List Nat → Bytecode
  formatMinimal : List String

/-- A deployment record persisted per version in the manifest. -/
structure DeploymentRecord where
  address : Address
  txHash : Option Nat
  layout : StorageLayout
  abi : List String
  deriving DecidableEq, Repr

/-- Modelled from the spec: the per-network manifest — a version-keyed map of
deployment records, plus the address-to-version association used to resolve
the layout of an implementation currently deployed at an address. -/
structure Manifest where
  impls : List (Version × DeploymentRecord)
  addrVersion : List (Address × Version)
  deriving DecidableEq, Repr

/-- The environment of one network: the provider reads, the proxy-kind
classification of on-chain bytecode, the black-box storage-compatibility
policy, and the outcome of broadcasting the deployment transaction. -/
structure Env where
  validations : ValidationDataCurrent
  implOfProxy : Address → Address
  implOfBeacon : Address → Address
  isProxy : Address → Bool
  proxyKindAt : Address → ProxyKind
  storageIncompat : StorageLayout → StorageLayout → Options → List String
  deployAddress : Address
  deployTxHash : Option Nat

/-- Errors of the pipeline, one constructor per typed failure of the spec. -/
inductive Err where
  | upgradeSafety (violations : List String)
  | storageLayout (violations : List String)
  | proxyKindMismatch (requested detected : ProxyKind)
  | notABeaconTarget (addr : Address)
  | unrecordedImplementation (addr : Address)
  deriving DecidableEq, Repr

/-- One collaborator call observed during a run, in program order. -/
inductive Event where
  | readValidations
  | processProxyKind (target : Option Address)
  | getImplementationAddress (proxy : Address)
  | assertNotProxy (addr : Address)
  | getImplementationAddressFromBeacon (beacon : Address)
  | assertUpgradeSafe
  | manifestForNetwork
  | getStorageLayoutForAddress (addr : Address)
  | assertStorageUpgradeSafe (old new : StorageLayout)
  | fetchOrDeploy
  | deployCallback
  | manifestInsert (v : Version)
  deriving DecidableEq, Repr

/-- The value `deployImpl` returns: implementation address, proxy kind and
optional transaction handle. -/
structure DeployedImpl where
  impl : Address
  kind : Option ProxyKind
  txResponse : Option Nat
  deriving DecidableEq, Repr

/-- The observable outcome of one pipeline run: its result, the manifest
after the run, and the trace of collaborator calls. -/
structure Outcome where
  result : Except Err DeployedImpl
  manifest : Manifest
  trace : List Event
  deriving Repr

/-- Modelled from the spec: a hash over a byte sequence (stands in for the
content hash used by `getVersion`). -/
def hashBytes (b : Bytecode) : Nat :=
  b.foldl (fun a x => a * 31 + x + 1) 7

/-- Modelled from the spec: `getVersion` derives the content-addressed
version triple from unlinked bytecode, linked bytecode and encoded
constructor arguments; a pure function of its three inputs. -/
def getVersion (unlinked linked args : Bytecode) : Version :=
  { withoutMetadata := hashBytes unlinked
    withMetadata := hashBytes (linked ++ args)
    linkedWithMetadata := hashBytes (unlinked ++ linked ++ args) }

/-- Modelled from the spec: `getUnlinkedBytecode` recovers the unlinked
identity of the factory bytecode from the validation data.  The spec's
`AmbiguousBytecodeError` path (section 4.1, bytecode matching no unique
validated artifact) is not modelled: the embedding treats input resolution as
already succeeded, and no theorem of this file classifies resolution
errors. -/
def getUnlinkedBytecode (v : ValidationDataCurrent) (b : Bytecode) : Bytecode :=
  v.unlinkedOf b

/-- Modelled from the spec: `getStorageLayout` returns the candidate
implementation's layout for a version from the validation data.  The spec's
`UnknownVersionError` path (section 4.2, a version with no matching validated
artifact) is not modelled: as with `getUnlinkedBytecode`, resolution is
embedded as already succeeded, and no theorem of this file classifies
resolution errors. -/
def getStorageLayout (v : ValidationDataCurrent) (ver : Version) : StorageLayout :=
  v.layoutOfVersion ver

/-- Modelled from the spec: `withDefaults` fills in defaulted options (the
embedding's options record is already total, so it is the identity). -/
def withDefaults (o : Options) : Options := o

/-- The DeployData record assembled by `getDeployData`. -/
structure DeployData where
  validations : ValidationDataCurrent
  unlinkedBytecode : Bytecode
  encodedArgs : Bytecode
  version : Version
  layout : StorageLayout
  fullOpts : Options

/-- Embedding of `getDeployData` (deploy-impl.ts lines 47-60): reads the
validations, derives unlinked bytecode, encoded args, version and candidate
layout, and applies option defaults. -/
def getDeployData (env : Env) (ImplFactory : ContractFactory) (opts : Options) :
    DeployData :=
  let validations := env.validations
  let unlinkedBytecode := getUnlinkedBytecode validations ImplFactory.bytecode
  let encodedArgs := ImplFactory.encodeDeploy opts.constructorArgs
  let version := getVersion unlinkedBytecode ImplFactory.bytecode encodedArgs
  let layout := getStorageLayout validations version
  let fullOpts := withDefaults opts
  { validations := validations, unlinkedBytecode := unlinkedBytecode,
    encodedArgs := encodedArgs, version := version, layout := layout,
    fullOpts := fullOpts }

/-- Modelled from the spec: the violations `assertUpgradeSafe` would report —
the safety findings for the version, minus those waived via `unsafeAllow`. -/
def upgradeSafetyViolations (v : ValidationDataCurrent) (ver : Version)
    (opts : Options) : List String :=
  (v.safetyFindings ver).filter (fun f => !(opts.unsafeAllow.contains f))

/-- Version lookup in the manifest (the cache read of `fetchOrDeploy`). -/
def lookupVersion (m : Manifest) (v : Version) : Option DeploymentRecord :=
  (m.impls.find? (fun p => decide (p.1 = v))).map (fun p => p.2)

/-- Address-to-version lookup in the manifest. -/
def lookupAddressVersion (m : Manifest) (a : Address) : Option Version :=
  (m.addrVersion.find? (fun p => decide (p.1 = a))).map (fun p => p.2)

/-- Insertion of a fresh deployment record, keyed by version, also recording
the deployed address. -/
def insertRecord (m : Manifest) (v : Version) (r : DeploymentRecord) : Manifest :=
  { impls := m.impls ++ [(v, r)],
    addrVersion := m.addrVersion ++ [(r.address, v)] }

/-- Modelled from the spec: `getStorageLayoutForAddress` resolves the
implementation currently associated with the address via the manifest, then
delegates to the per-version layout; fails when the address is not recorded
in the manifest. -/
def getStorageLayoutForAddress (m : Manifest) (v : ValidationDataCurrent)
    (a : Address) : Except Err StorageLayout :=
  match lookupAddressVersion m a with
  | some ver => .ok (getStorageLayout v ver)
  | none => .error (.unrecordedImplementation a)

/-- Modelled from the spec: `processProxyKind` classifies the proxy kind of
the target address by its bytecode and cross-checks it against an explicitly
requested kind, failing on disagreement; with no target address, the
requested kind (defaulting to transparent) stands. -/
def processProxyKind (env : Env) (proxyAddress : Option Address)
    (opts : Options) : Except Err ProxyKind :=
  match proxyAddress with
  | none => .ok (opts.kind.getD ProxyKind.transparent)
  | some a =>
    match opts.kind with
    | none => .ok (env.proxyKindAt a)
    | some k =>
      if k = env.proxyKindAt a then .ok k
      else .error (.proxyKindMismatch k (env.proxyKindAt a))

/-- The record built by the deploy callback passed to
`fetchOrDeployGetDeployment` (deploy-impl.ts lines 120-124): the factory's
minimal-format ABI, the address and transaction hash of the broadcast
deployment, and the candidate layout. -/
def mkDeploymentRecord (env : Env) (dd : DeployData)
    (ImplFactory : ContractFactory) : DeploymentRecord :=
  { address := env.deployAddress, txHash := env.deployTxHash,
    layout := dd.layout, abi := ImplFactory.formatMinimal }

/-- The transaction handle assembled for the result (deploy-impl.ts lines
128-135). -/
def txResponseOf (opts : Options) (r : DeploymentRecord) : Option Nat :=
  if opts.getTxResponse then r.txHash else none

/-- Modelled from the spec plus deploy-impl.ts lines 117-126: the
`fetchOrDeployGetDeployment` step and result assembly.  On a version hit the
stored record is returned and the deploy callback is not invoked; on a miss
the callback runs and its record is durably inserted keyed by the version. -/
def finishDeploy (env : Env) (dd : DeployData) (ImplFactory : ContractFactory)
    (opts : Options) (m : Manifest) : Outcome :=
  match lookupVersion m dd.version with
  | some record =>
    { result := .ok { impl := record.address, kind := opts.kind,
                      txResponse := txResponseOf opts record },
      manifest := m,
      trace := [.fetchOrDeploy] }
  | none =>
    let record := mkDeploymentRecord env dd ImplFactory
    { result := .ok { impl := record.address, kind := opts.kind,
                      txResponse := txResponseOf opts record },
      manifest := insertRecord m dd.version record,
      trace := [.fetchOrDeploy, .deployCallback, .manifestInsert dd.version] }

/-- Embedding of `deployImpl` (deploy-impl.ts lines 98-138): assert upgrade
safety, then — only when upgrading — open the manifest and resolve the
current implementation's layout, run the storage gate unless skipped, then
fetch-or-deploy and assemble the result. -/
def deployImpl (env : Env) (dd : DeployData) (ImplFactory : ContractFactory)
    (opts : Options) (m : Manifest) (currentImplAddress : Option Address) :
    Outcome :=
  let violations := upgradeSafetyViolations dd.validations dd.version dd.fullOpts
  if violations = [] then
    match currentImplAddress with
    | none =>
      let fin := finishDeploy env dd ImplFactory opts m
      { fin with trace := Event.assertUpgradeSafe :: fin.trace }
    | some addr =>
      match getStorageLayoutForAddress m dd.validations addr with
      | .error e =>
        { result := .error e, manifest := m,
          trace := [.assertUpgradeSafe, .manifestForNetwork,
                    .getStorageLayoutForAddress addr] }
      | .ok currentLayout =>
        if opts.unsafeSkipStorageCheck = true then
          let fin := finishDeploy env dd ImplFactory opts m
          { fin with trace := [.assertUpgradeSafe, .manifestForNetwork,
                               .getStorageLayoutForAddress addr] ++ fin.trace }
        else
          let incompat := env.storageIncompat currentLayout dd.layout dd.fullOpts
          if incompat = [] then
            let fin := finishDeploy env dd ImplFactory opts m
            { fin with trace := [.assertUpgradeSafe, .manifestForNetwork,
                                 .getStorageLayoutForAddress addr,
                                 .assertStorageUpgradeSafe currentLayout dd.layout]
                                ++ fin.trace }
          else
            { result := .error (.storageLayout incompat), manifest := m,
              trace := [.assertUpgradeSafe, .manifestForNetwork,
                        .getStorageLayoutForAddress addr,
                        .assertStorageUpgradeSafe currentLayout dd.layout] }
  else
    { result := .error (.upgradeSafety violations), manifest := m,
      trace := [.assertUpgradeSafe] }

/-- Embedding of `deployProxyImpl` (deploy-impl.ts lines 62-79): resolve the
deploy data, process the proxy kind, read the current implementation address
from the provider when upgrading, and run `deployImpl`. -/
def deployProxyImpl (env : Env) (ImplFactory : ContractFactory)
    (opts : Options) (m : Manifest) (proxyAddress : Option Address) : Outcome :=
  let dd := getDeployData env ImplFactory opts
  match processProxyKind env proxyAddress opts with
  | .error e =>
    { result := .error e, manifest := m,
      trace := [.readValidations, .processProxyKind proxyAddress] }
  | .ok k =>
    match proxyAddress with
    | some pa =>
      let cur := env.implOfProxy pa
      let o := deployImpl env dd ImplFactory { opts with kind := some k } m (some cur)
      { o with trace := [.readValidations, .processProxyKind proxyAddress,
                         .getImplementationAddress pa] ++ o.trace }
    | none =>
      let o := deployImpl env dd ImplFactory { opts with kind := some k } m none
      { o with trace := [.readValidations, .processProxyKind proxyAddress]
                        ++ o.trace }

/-- Embedding of `deployBeaconImpl` (deploy-impl.ts lines 81-96): resolve the
deploy data; when upgrading, assert the beacon target is not a proxy and read
the beacon's current implementation; then run `deployImpl`. -/
def deployBeaconImpl (env : Env) (ImplFactory : ContractFactory)
    (opts : Options) (m : Manifest) (beaconAddress : Option Address) : Outcome :=
  let dd := getDeployData env ImplFactory opts
  match beaconAddress with
  | none =>
    let o := deployImpl env dd ImplFactory opts m none
    { o with trace := Event.readValidations :: o.trace }
  | some ba =>
    if env.isProxy ba then
      { result := .error (.notABeaconTarget ba), manifest := m,
        trace := [.readValidations, .assertNotProxy ba] }
    else
      let cur := env.implOfBeacon ba
      let o := deployImpl env dd ImplFactory opts m (some cur)
      { o with trace := [.readValidations, .assertNotProxy ba,
                         .getImplementationAddressFromBeacon ba] ++ o.trace }

end DeployImpl

namespace DeployImpl

/-! ## Branch equations

One equation per control-flow branch of the embedded functions; the claim
theorems are proved by case analysis plus these rewrites. -/

theorem finishDeploy_eq_hit (env : Env) (dd : DeployData) (f : ContractFactory)
    (opts : Options) (m : Manifest) (r : DeploymentRecord)
    (h : lookupVersion m dd.version = some r) :
    finishDeploy env dd f opts m =
      { result := .ok { impl := r.address, kind := opts.kind,
                        txResponse := txResponseOf opts r },
        manifest := m, trace := [.fetchOrDeploy] } := by
  simp [finishDeploy, h]

theorem finishDeploy_eq_miss (env : Env) (dd : DeployData) (f : ContractFactory)
    (opts : Options) (m : Manifest)
    (h : lookupVersion m dd.version = none) :
    finishDeploy env dd f opts m =
      { result := .ok { impl := (mkDeploymentRecord env dd f).address,
                        kind := opts.kind,
                        txResponse := txResponseOf opts (mkDeploymentRecord env dd f) },
        manifest := insertRecord m dd.version (mkDeploymentRecord env dd f),
        trace := [.fetchOrDeploy, .deployCallback, .manifestInsert dd.version] } := by
  simp [finishDeploy, h]

theorem deployImpl_eq_gateFail (env : Env) (dd : DeployData) (f : ContractFactory)
    (opts : Options) (m : Manifest) (cur : Option Address)
    (h : upgradeSafetyViolations dd.validations dd.version dd.fullOpts ≠ []) :
    deployImpl env dd f opts m cur =
      { result := .error (.upgradeSafety
          (upgradeSafetyViolations dd.validations dd.version dd.fullOpts)),
        manifest := m, trace := [.assertUpgradeSafe] } := by
  simp [deployImpl, h]

theorem deployImpl_eq_fresh (env : Env) (dd : DeployData) (f : ContractFactory)
    (opts : Options) (m : Manifest)
    (h : upgradeSafetyViolations dd.validations dd.version dd.fullOpts = []) :
    deployImpl env dd f opts m none =
      { finishDeploy env dd f opts m with
        trace := Event.assertUpgradeSafe :: (finishDeploy env dd f opts m).trace } := by
  simp [deployImpl, h]

theorem deployImpl_eq_layoutErr (env : Env) (dd : DeployData) (f : ContractFactory)
    (opts : Options) (m : Manifest) (a : Address) (e : Err)
    (h : upgradeSafetyViolations dd.validations dd.version dd.fullOpts = [])
    (hsl : getStorageLayoutForAddress m dd.validations a = .error e) :
    deployImpl env dd f opts m (some a) =
      { result := .error e, manifest := m,
        trace := [.assertUpgradeSafe, .manifestForNetwork,
                  .getStorageLayoutForAddress a] } := by
  simp [deployImpl, h, hsl]

theorem deployImpl_eq_skip (env : Env) (dd : DeployData) (f : ContractFactory)
    (opts : Options) (m : Manifest) (a : Address) (l : StorageLayout)
    (h : upgradeSafetyViolations dd.validations dd.version dd.fullOpts = [])
    (hsl : getStorageLayoutForAddress m dd.validations a = .ok l)
    (hskip : opts.unsafeSkipStorageCheck = true) :
    deployImpl env dd f opts m (some a) =
      { finishDeploy env dd f opts m with
        trace := [.assertUpgradeSafe, .manifestForNetwork,
                  .getStorageLayoutForAddress a]
                 ++ (finishDeploy env dd f opts m).trace } := by
  simp [deployImpl, h, hsl, hskip]

theorem deployImpl_eq_checked (env : Env) (dd : DeployData) (f : ContractFactory)
    (opts : Options) (m : Manifest) (a : Address) (l : StorageLayout)
    (h : upgradeSafetyViolations dd.validations dd.version dd.fullOpts = [])
    (hsl : getStorageLayoutForAddress m dd.validations a = .ok l)
    (hskip : opts.unsafeSkipStorageCheck = false)
    (hinc : env.storageIncompat l dd.layout dd.fullOpts = []) :
    deployImpl env dd f opts m (some a) =
      { finishDeploy env dd f opts m with
        trace := [.assertUpgradeSafe, .manifestForNetwork,
                  .getStorageLayoutForAddress a,
                  .assertStorageUpgradeSafe l dd.layout]
                 ++ (finishDeploy env dd f opts m).trace } := by
  simp [deployImpl, h, hsl, hskip, hinc]

theorem deployImpl_eq_storageFail (env : Env) (dd : DeployData) (f : ContractFactory)
    (opts : Options) (m : Manifest) (a : Address) (l : StorageLayout)
    (h : upgradeSafetyViolations dd.validations dd.version dd.fullOpts = [])
    (hsl : getStorageLayoutForAddress m dd.validations a = .ok l)
    (hskip : opts.unsafeSkipStorageCheck = false)
    (hinc : env.storageIncompat l dd.layout dd.fullOpts ≠ []) :
    deployImpl env dd f opts m (some a) =
      { result := .error (.storageLayout (env.storageIncompat l dd.layout dd.fullOpts)),
        manifest := m,
        trace := [.assertUpgradeSafe, .manifestForNetwork,
                  .getStorageLayoutForAddress a,
                  .assertStorageUpgradeSafe l dd.layout] } := by
  simp [deployImpl, h, hsl, hskip, hinc]

theorem deployProxyImpl_eq_kindErr (env : Env) (f : ContractFactory)
    (opts : Options) (m : Manifest) (pa : Option Address) (e : Err)
    (hpk : processProxyKind env pa opts = .error e) :
    deployProxyImpl env f opts m pa =
      { result := .error e, manifest := m,
        trace := [.readValidations, .processProxyKind pa] } := by
  simp [deployProxyImpl, hpk]

theorem deployProxyImpl_eq_upgrade (env : Env) (f : ContractFactory)
    (opts : Options) (m : Manifest) (pa : Address) (k : ProxyKind)
    (hpk : processProxyKind env (some pa) opts = .ok k) :
    deployProxyImpl env f opts m (some pa) =
      { deployImpl env (getDeployData env f opts) f { opts with kind := some k }
          m (some (env.implOfProxy pa)) with
        trace := [.readValidations, .processProxyKind (some pa),
                  .getImplementationAddress pa]
                 ++ (deployImpl env (getDeployData env f opts) f
                       { opts with kind := some k } m
                       (some (env.implOfProxy pa))).trace } := by
  simp [deployProxyImpl, hpk]

theorem deployProxyImpl_eq_fresh (env : Env) (f : ContractFactory)
    (opts : Options) (m : Manifest) :
    deployProxyImpl env f opts m none =
      { deployImpl env (getDeployData env f opts) f
          { opts with kind := some (opts.kind.getD ProxyKind.transparent) } m none with
        trace := [.readValidations, .processProxyKind none]
                 ++ (deployImpl env (getDeployData env f opts) f
                       { opts with kind := some (opts.kind.getD ProxyKind.transparent) }
                       m none).trace } := by
  simp [deployProxyImpl, processProxyKind]

theorem deployBeaconImpl_eq_fresh (env : Env) (f : ContractFactory)
    (opts : Options) (m : Manifest) :
    deployBeaconImpl env f opts m none =
      { deployImpl env (getDeployData env f opts) f opts m none with
        trace := Event.readValidations
                 :: (deployImpl env (getDeployData env f opts) f opts m none).trace } := by
  simp [deployBeaconImpl]

theorem deployBeaconImpl_eq_reject (env : Env) (f : ContractFactory)
    (opts : Options) (m : Manifest) (ba : Address)
    (h : env.isProxy ba = true) :
    deployBeaconImpl env f opts m (some ba) =
      { result := .error (.notABeaconTarget ba), manifest := m,
        trace := [.readValidations, .assertNotProxy ba] } := by
  simp [deployBeaconImpl, h]

theorem deployBeaconImpl_eq_upgrade (env : Env) (f : ContractFactory)
    (opts : Options) (m : Manifest) (ba : Address)
    (h : env.isProxy ba = false) :
    deployBeaconImpl env f opts m (some ba) =
      { deployImpl env (getDeployData env f opts) f opts m
          (some (env.implOfBeacon ba)) with
        trace := [.readValidations, .assertNotProxy ba,
                  .getImplementationAddressFromBeacon ba]
                 ++ (deployImpl env (getDeployData env f opts) f opts m
                       (some (env.implOfBeacon ba))).trace } := by
  simp [deployBeaconImpl, h]

end DeployImpl

namespace DeployImpl

/-! ## Manifest and cache lemmas -/

theorem lookupVersion_insert_self (m : Manifest) (v : Version)
    (r : DeploymentRecord) (h : lookupVersion m v = none) :
    lookupVersion (insertRecord m v r) v = some r := by
  unfold lookupVersion insertRecord at *
  cases hf : m.impls.find? (fun p => decide (p.1 = v)) with
  | some x => rw [hf] at h; simp at h
  | none => simp [List.find?_append, hf, List.find?]

theorem lookupAddressVersion_insert (m : Manifest) (v : Version)
    (r : DeploymentRecord) (a : Address) (x : Version)
    (h : lookupAddressVersion m a = some x) :
    lookupAddressVersion (insertRecord m v r) a = some x := by
  unfold lookupAddressVersion insertRecord at *
  cases hf : m.addrVersion.find? (fun p => decide (p.1 = a)) with
  | none => rw [hf] at h; simp at h
  | some y =>
    rw [hf] at h
    simp at h
    rw [List.find?_append, hf]
    simpa using h

theorem getStorageLayoutForAddress_insert (m : Manifest)
    (vd : ValidationDataCurrent) (a : Address) (v : Version)
    (r : DeploymentRecord) (l : StorageLayout)
    (h : getStorageLayoutForAddress m vd a = .ok l) :
    getStorageLayoutForAddress (insertRecord m v r) vd a = .ok l := by
  unfold getStorageLayoutForAddress at *
  cases hx : lookupAddressVersion m a with
  | none => rw [hx] at h; simp at h
  | some ver =>
    rw [lookupAddressVersion_insert m v r a ver hx]
    rw [hx] at h
    exact h

theorem finishDeploy_result_ok (env : Env) (dd : DeployData)
    (f : ContractFactory) (opts : Options) (m : Manifest) :
    ∃ d, (finishDeploy env dd f opts m).result = .ok d := by
  unfold finishDeploy
  cases lookupVersion m dd.version <;> simp

theorem finishDeploy_trace_mem (env : Env) (dd : DeployData)
    (f : ContractFactory) (opts : Options) (m : Manifest) (e : Event)
    (he : e ∈ (finishDeploy env dd f opts m).trace) :
    e = Event.fetchOrDeploy ∨ e = Event.deployCallback
      ∨ e = Event.manifestInsert dd.version := by
  unfold finishDeploy at he
  cases hl : lookupVersion m dd.version <;> rw [hl] at he <;> simp at he <;> tauto

theorem finishDeploy_trace_head (env : Env) (dd : DeployData)
    (f : ContractFactory) (opts : Options) (m : Manifest) :
    ∃ rest, (finishDeploy env dd f opts m).trace = Event.fetchOrDeploy :: rest := by
  unfold finishDeploy
  cases lookupVersion m dd.version <;> simp

theorem finishDeploy_second_run (env : Env) (dd : DeployData)
    (f : ContractFactory) (opts : Options) (m : Manifest) :
    (finishDeploy env dd f opts (finishDeploy env dd f opts m).manifest).result
      = (finishDeploy env dd f opts m).result
    ∧ (finishDeploy env dd f opts (finishDeploy env dd f opts m).manifest).manifest
      = (finishDeploy env dd f opts m).manifest
    ∧ Event.deployCallback
        ∉ (finishDeploy env dd f opts (finishDeploy env dd f opts m).manifest).trace := by
  cases hl : lookupVersion m dd.version with
  | some r =>
    rw [finishDeploy_eq_hit env dd f opts m r hl]
    rw [finishDeploy_eq_hit env dd f opts m r hl]
    simp [finishDeploy_eq_hit env dd f opts m r hl]
  | none =>
    have h2 := lookupVersion_insert_self m dd.version (mkDeploymentRecord env dd f) hl
    rw [finishDeploy_eq_miss env dd f opts m hl]
    simp only
    rw [finishDeploy_eq_hit env dd f opts
      (insertRecord m dd.version (mkDeploymentRecord env dd f))
      (mkDeploymentRecord env dd f) h2]
    simp

/-! ## Concrete fixtures for the worked examples -/

/-- A concrete validation snapshot with no safety findings. -/
def exValidations : ValidationDataCurrent where
  unlinkedOf := fun b => b
  layoutOfVersion := fun v => ⟨v.withMetadata⟩
  safetyFindings := fun _ => []

/-- A validation snapshot reporting one upgrade-safety finding. -/
def exValidationsBad : ValidationDataCurrent where
  unlinkedOf := fun b => b
  layoutOfVersion := fun v => ⟨v.withMetadata⟩
  safetyFindings := fun _ => ["delegatecall"]

/-- The version recorded for the currently deployed implementation. -/
def exOldVersion : Version := ⟨10, 11, 12⟩

/-- A concrete network environment. -/
def exEnv : Env where
  validations := exValidations
  implOfProxy := fun a => a + 100
  implOfBeacon := fun a => a + 200
  isProxy := fun a => decide (a % 2 = 0)
  proxyKindAt := fun _ => ProxyKind.transparent
  storageIncompat := fun _ _ _ => []
  deployAddress := 42
  deployTxHash := some 9

/-- A second environment: the same validations, entirely different network
state and deploy results. -/
def exEnv2 : Env where
  validations := exValidations
  implOfProxy := fun a => a + 1
  implOfBeacon := fun a => a
  isProxy := fun _ => false
  proxyKindAt := fun _ => ProxyKind.uups
  storageIncompat := fun _ _ _ => ["clash"]
  deployAddress := 77
  deployTxHash := none

/-- An environment whose validations carry an upgrade-safety finding. -/
def exEnvBad : Env where
  validations := exValidationsBad
  implOfProxy := fun a => a + 100
  implOfBeacon := fun a => a + 200
  isProxy := fun a => decide (a % 2 = 0)
  proxyKindAt := fun _ => ProxyKind.transparent
  storageIncompat := fun _ _ _ => []
  deployAddress := 42
  deployTxHash := some 9

/-- A concrete contract factory. -/
def exFactory : ContractFactory where
  bytecode := [1, 2, 3]
  encodeDeploy := fun args => args
  formatMinimal := ["constructor()"]

/-- Default options: no waivers, storage check on. -/
def exOpts : Options where
  constructorArgs := []
  unsafeAllow := []
  unsafeSkipStorageCheck := false
  kind := none
  getTxResponse := false

/-- Options with the storage check explicitly skipped. -/
def exOptsSkip : Options := { exOpts with unsafeSkipStorageCheck := true }

/-- Options explicitly requesting the uups kind. -/
def exOptsUups : Options := { exOpts with kind := some ProxyKind.uups }

/-- A manifest that records the current implementations at addresses 105 (the
proxy's) and 205 (the beacon's) under `exOldVersion` and holds no deployment
for any candidate version. -/
def exManifest : Manifest where
  impls := []
  addrVersion := [(105, exOldVersion), (205, exOldVersion)]

end DeployImpl

namespace DeployImpl

/-! ## Projection helpers for `getDeployData` -/

theorem getDeployData_validations (env : Env) (f : ContractFactory)
    (opts : Options) : (getDeployData env f opts).validations = env.validations := rfl

theorem getDeployData_fullOpts (env : Env) (f : ContractFactory)
    (opts : Options) : (getDeployData env f opts).fullOpts = opts := rfl

theorem getDeployData_layout (env : Env) (f : ContractFactory) (opts : Options) :
    (getDeployData env f opts).layout
      = getStorageLayout env.validations (getDeployData env f opts).version := rfl

/-! ## The claims -/

/-- C1 is false on the code at a concrete upgrade input: with
`unsafeSkipStorageCheck := true` the pipeline still opens the manifest and
still invokes `getStorageLayoutForAddress` for the current implementation
(only the `assertStorageUpgradeSafe` call is bypassed). -/
theorem skip_storage_check_reads_layout_cex :
    Event.getStorageLayoutForAddress 105 ∈
      (deployProxyImpl exEnv exFactory exOptsSkip exManifest (some 5)).trace
    ∧ Event.manifestForNetwork ∈
      (deployProxyImpl exEnv exFactory exOptsSkip exManifest (some 5)).trace := by
  decide

/-- C1 (amended): with `unsafeSkipStorageCheck := true` on an upgrade
invocation, `assertStorageUpgradeSafe` is never invoked; but the old layout
is still computed — when the upgrade-safety gate passes, the manifest is
opened and `getStorageLayoutForAddress` is still called for the current
implementation address. -/
theorem deployImpl_skip_no_storage_assert (env : Env) (dd : DeployData)
    (f : ContractFactory) (opts : Options) (m : Manifest) (a : Address)
    (hskip : opts.unsafeSkipStorageCheck = true) :
    (∀ o n, Event.assertStorageUpgradeSafe o n
        ∉ (deployImpl env dd f opts m (some a)).trace)
    ∧ (upgradeSafetyViolations dd.validations dd.version dd.fullOpts = [] →
        Event.manifestForNetwork ∈ (deployImpl env dd f opts m (some a)).trace
        ∧ Event.getStorageLayoutForAddress a
            ∈ (deployImpl env dd f opts m (some a)).trace) := by
  by_cases hv : upgradeSafetyViolations dd.validations dd.version dd.fullOpts = []
  · cases hsl : getStorageLayoutForAddress m dd.validations a with
    | error e =>
      rw [deployImpl_eq_layoutErr env dd f opts m a e hv hsl]
      constructor
      · intro o n
        simp
      · intro _
        simp
    | ok l =>
      rw [deployImpl_eq_skip env dd f opts m a l hv hsl hskip]
      constructor
      · intro o n hmem
        simp at hmem
        rcases finishDeploy_trace_mem env dd f opts m _ hmem with h2 | h2 | h2 <;>
          simp at h2
      · intro _
        simp
  · rw [deployImpl_eq_gateFail env dd f opts m (some a) hv]
    constructor
    · intro o n
      simp
    · intro hc
      exact absurd hc hv

/-- Witness for the amended C1 at a concrete upgrade input. -/
theorem deployImpl_skip_no_storage_assert_witness :
    exOptsSkip.unsafeSkipStorageCheck = true
    ∧ Event.assertStorageUpgradeSafe ⟨10⟩ ⟨210556⟩
        ∉ (deployImpl exEnv (getDeployData exEnv exFactory exOptsSkip) exFactory
            exOptsSkip exManifest (some 105)).trace :=
  ⟨by decide,
   (deployImpl_skip_no_storage_assert exEnv (getDeployData exEnv exFactory exOptsSkip)
      exFactory exOptsSkip exManifest 105 (by decide)).1 ⟨10⟩ ⟨210556⟩⟩

/-- C2 is false on the code at a concrete upgrade input: in the actual trace
`assertUpgradeSafe` (index 3) precedes the fetch of the current
implementation's layout (`getStorageLayoutForAddress`, index 5), whereas the
claimed order puts the layout fetch first. -/
theorem upgrade_step_order_cex :
    Event.assertUpgradeSafe
        ∈ (deployProxyImpl exEnv exFactory exOpts exManifest (some 5)).trace
    ∧ Event.getStorageLayoutForAddress 105
        ∈ (deployProxyImpl exEnv exFactory exOpts exManifest (some 5)).trace
    ∧ ¬ ((deployProxyImpl exEnv exFactory exOpts exManifest (some 5)).trace.indexOf
          (Event.getStorageLayoutForAddress 105)
        < (deployProxyImpl exEnv exFactory exOpts exManifest (some 5)).trace.indexOf
          Event.assertUpgradeSafe) := by
  decide

/-- C2 (amended): on a proxy upgrade with the storage check not skipped,
every run that reaches `fetchOrDeploy` performs exactly this order: resolve
deploy data (readValidations) → classify the proxy kind → read the current
implementation address → `assertUpgradeSafe` → open the manifest and fetch
the current implementation's layout → `assertStorageUpgradeSafe` →
`fetchOrDeploy` → assemble the result. -/
theorem deployProxyImpl_upgrade_step_order (env : Env) (f : ContractFactory)
    (opts : Options) (m : Manifest) (pa : Address)
    (hskip : opts.unsafeSkipStorageCheck = false)
    (hfd : Event.fetchOrDeploy ∈ (deployProxyImpl env f opts m (some pa)).trace) :
    ∃ old rest, (deployProxyImpl env f opts m (some pa)).trace =
      [Event.readValidations, Event.processProxyKind (some pa),
       Event.getImplementationAddress pa, Event.assertUpgradeSafe,
       Event.manifestForNetwork,
       Event.getStorageLayoutForAddress (env.implOfProxy pa),
       Event.assertStorageUpgradeSafe old (getDeployData env f opts).layout,
       Event.fetchOrDeploy] ++ rest := by
  cases hpk : processProxyKind env (some pa) opts with
  | error e =>
    rw [deployProxyImpl_eq_kindErr env f opts m (some pa) e hpk] at hfd ⊢
    simp at hfd
  | ok k =>
    rw [deployProxyImpl_eq_upgrade env f opts m pa k hpk] at hfd ⊢
    set dd := getDeployData env f opts with hdd
    set opts2 : Options := { opts with kind := some k } with hopts2
    have hskip2 : opts2.unsafeSkipStorageCheck = false := hskip
    by_cases hv : upgradeSafetyViolations dd.validations dd.version dd.fullOpts = []
    · cases hsl : getStorageLayoutForAddress m dd.validations (env.implOfProxy pa) with
      | error e =>
        rw [deployImpl_eq_layoutErr env dd f opts2 m (env.implOfProxy pa) e hv hsl]
          at hfd ⊢
        simp at hfd
      | ok l =>
        by_cases hinc : env.storageIncompat l dd.layout dd.fullOpts = []
        · rw [deployImpl_eq_checked env dd f opts2 m (env.implOfProxy pa) l
            hv hsl hskip2 hinc] at hfd ⊢
          obtain ⟨rest, hrest⟩ := finishDeploy_trace_head env dd f opts2 m
          refine ⟨l, rest, ?_⟩
          simp [hrest]
        · rw [deployImpl_eq_storageFail env dd f opts2 m (env.implOfProxy pa) l
            hv hsl hskip2 hinc] at hfd ⊢
          simp at hfd
    · rw [deployImpl_eq_gateFail env dd f opts2 m (some (env.implOfProxy pa)) hv]
        at hfd ⊢
      simp at hfd

/-- Witness for the amended C2 at a concrete upgrade input. -/
theorem deployProxyImpl_upgrade_step_order_witness :
    exOpts.unsafeSkipStorageCheck = false
    ∧ Event.fetchOrDeploy
        ∈ (deployProxyImpl exEnv exFactory exOpts exManifest (some 5)).trace
    ∧ ∃ old rest, (deployProxyImpl exEnv exFactory exOpts exManifest (some 5)).trace =
        [Event.readValidations, Event.processProxyKind (some 5),
         Event.getImplementationAddress 5, Event.assertUpgradeSafe,
         Event.manifestForNetwork,
         Event.getStorageLayoutForAddress (exEnv.implOfProxy 5),
         Event.assertStorageUpgradeSafe old (getDeployData exEnv exFactory exOpts).layout,
         Event.fetchOrDeploy] ++ rest :=
  ⟨by decide, by decide,
   deployProxyImpl_upgrade_step_order exEnv exFactory exOpts exManifest 5
     (by decide) (by decide)⟩

/-- C3: whenever a safety gate (or any other step before the cache) raises,
`deployImpl` aborts with that error before `fetchOrDeployGetDeployment` runs:
the trace contains no `fetchOrDeploy` and no deploy-callback invocation, and
the manifest is left unchanged — so no deployment transaction is sent. -/
theorem deployImpl_error_aborts (env : Env) (dd : DeployData)
    (f : ContractFactory) (opts : Options) (m : Manifest)
    (cur : Option Address) (e : Err)
    (h : (deployImpl env dd f opts m cur).result = .error e) :
    Event.fetchOrDeploy ∉ (deployImpl env dd f opts m cur).trace
    ∧ Event.deployCallback ∉ (deployImpl env dd f opts m cur).trace
    ∧ (deployImpl env dd f opts m cur).manifest = m := by
  by_cases hv : upgradeSafetyViolations dd.validations dd.version dd.fullOpts = []
  · cases cur with
    | none =>
      rw [deployImpl_eq_fresh env dd f opts m hv] at h
      obtain ⟨d, hd⟩ := finishDeploy_result_ok env dd f opts m
      simp [hd] at h
    | some a =>
      cases hsl : getStorageLayoutForAddress m dd.validations a with
      | error e2 =>
        rw [deployImpl_eq_layoutErr env dd f opts m a e2 hv hsl]
        simp
      | ok l =>
        by_cases hskip : opts.unsafeSkipStorageCheck = true
        · rw [deployImpl_eq_skip env dd f opts m a l hv hsl hskip] at h
          obtain ⟨d, hd⟩ := finishDeploy_result_ok env dd f opts m
          simp [hd] at h
        · have hskip2 : opts.unsafeSkipStorageCheck = false := by simpa using hskip
          by_cases hinc : env.storageIncompat l dd.layout dd.fullOpts = []
          · rw [deployImpl_eq_checked env dd f opts m a l hv hsl hskip2 hinc] at h
            obtain ⟨d, hd⟩ := finishDeploy_result_ok env dd f opts m
            simp [hd] at h
          · rw [deployImpl_eq_storageFail env dd f opts m a l hv hsl hskip2 hinc]
            simp
  · rw [deployImpl_eq_gateFail env dd f opts m cur hv]
    simp

/-- Witness for C3 at a concrete input whose validations report an
upgrade-safety finding. -/
theorem deployImpl_error_aborts_witness :
    (deployImpl exEnvBad (getDeployData exEnvBad exFactory exOpts) exFactory
        exOpts exManifest (some 105)).result
      = .error (.upgradeSafety ["delegatecall"])
    ∧ Event.fetchOrDeploy
        ∉ (deployImpl exEnvBad (getDeployData exEnvBad exFactory exOpts) exFactory
            exOpts exManifest (some 105)).trace
    ∧ Event.deployCallback
        ∉ (deployImpl exEnvBad (getDeployData exEnvBad exFactory exOpts) exFactory
            exOpts exManifest (some 105)).trace
    ∧ (deployImpl exEnvBad (getDeployData exEnvBad exFactory exOpts) exFactory
        exOpts exManifest (some 105)).manifest = exManifest :=
  ⟨by rfl,
   deployImpl_error_aborts exEnvBad (getDeployData exEnvBad exFactory exOpts)
     exFactory exOpts exManifest (some 105) (.upgradeSafety ["delegatecall"])
     (by rfl)⟩

end DeployImpl

namespace DeployImpl

theorem deployImpl_storage_gate_layout (env : Env) (dd : DeployData)
    (f : ContractFactory) (opts : Options) (m : Manifest) (a : Address)
    (old new_ : StorageLayout)
    (h : Event.assertStorageUpgradeSafe old new_
        ∈ (deployImpl env dd f opts m (some a)).trace) :
    getStorageLayoutForAddress m dd.validations a = .ok old := by
  by_cases hv : upgradeSafetyViolations dd.validations dd.version dd.fullOpts = []
  · cases hsl : getStorageLayoutForAddress m dd.validations a with
    | error e2 =>
      rw [deployImpl_eq_layoutErr env dd f opts m a e2 hv hsl] at h
      simp at h
    | ok l =>
      by_cases hskip : opts.unsafeSkipStorageCheck = true
      · rw [deployImpl_eq_skip env dd f opts m a l hv hsl hskip] at h
        simp at h
        rcases finishDeploy_trace_mem env dd f opts m _ h with h2 | h2 | h2 <;>
          simp at h2
      · have hskip2 : opts.unsafeSkipStorageCheck = false := by simpa using hskip
        by_cases hinc : env.storageIncompat l dd.layout dd.fullOpts = []
        · rw [deployImpl_eq_checked env dd f opts m a l hv hsl hskip2 hinc] at h
          simp at h
          rcases h with ⟨rfl, rfl⟩ | h2
          · rfl
          · rcases finishDeploy_trace_mem env dd f opts m _ h2 with h3 | h3 | h3 <;>
              simp at h3
        · rw [deployImpl_eq_storageFail env dd f opts m a l hv hsl hskip2 hinc] at h
          simp at h
          obtain ⟨rfl, rfl⟩ := h
          rfl
  · rw [deployImpl_eq_gateFail env dd f opts m (some a) hv] at h
    simp at h

/-- C5: whenever an upgrade run — through either entry point — invokes
`assertStorageUpgradeSafe`, the old-layout argument is exactly the layout
resolved (via the manifest and the validations) for the implementation
address read from the provider at call time: `env.implOfProxy a`
(`getImplementationAddress`) on the proxy flow, `env.implOfBeacon a`
(`getImplementationAddressFromBeacon`) on the beacon flow — never a cached or
stale layout. -/
theorem upgrade_storage_gate_current_layout (env : Env) (f : ContractFactory)
    (opts : Options) (m : Manifest) (a : Address) (old new_ : StorageLayout) :
    (Event.assertStorageUpgradeSafe old new_
        ∈ (deployProxyImpl env f opts m (some a)).trace →
      getStorageLayoutForAddress m env.validations (env.implOfProxy a) = .ok old)
    ∧ (Event.assertStorageUpgradeSafe old new_
        ∈ (deployBeaconImpl env f opts m (some a)).trace →
      getStorageLayoutForAddress m env.validations (env.implOfBeacon a) = .ok old) := by
  constructor
  · intro h
    cases hpk : processProxyKind env (some a) opts with
    | error e =>
      rw [deployProxyImpl_eq_kindErr env f opts m (some a) e hpk] at h
      simp at h
    | ok k =>
      rw [deployProxyImpl_eq_upgrade env f opts m a k hpk] at h
      simp at h
      exact deployImpl_storage_gate_layout env (getDeployData env f opts) f
        { opts with kind := some k } m (env.implOfProxy a) old new_ h
  · intro h
    cases hb : env.isProxy a with
    | true =>
      rw [deployBeaconImpl_eq_reject env f opts m a hb] at h
      simp at h
    | false =>
      rw [deployBeaconImpl_eq_upgrade env f opts m a hb] at h
      simp at h
      exact deployImpl_storage_gate_layout env (getDeployData env f opts) f opts m
        (env.implOfBeacon a) old new_ h

/-- Witness for C5 on the beacon flow at a concrete upgrade input (the proxy
flow is exercised by other concrete runs of this file). -/
theorem upgrade_storage_gate_current_layout_witness :
    Event.assertStorageUpgradeSafe ⟨10⟩ ⟨210556⟩
        ∈ (deployBeaconImpl exEnv exFactory exOpts exManifest (some 5)).trace
    ∧ getStorageLayoutForAddress exManifest exEnv.validations (exEnv.implOfBeacon 5)
        = .ok ⟨10⟩ :=
  ⟨by decide,
   (upgrade_storage_gate_current_layout exEnv exFactory exOpts exManifest 5
      ⟨10⟩ ⟨210556⟩).2 (by decide)⟩

/-- C6: on a beacon upgrade whose target address is a proxy, the run fails
with `NotABeaconTargetError` and its trace is exactly the validations read
followed by `assertNotProxy` — the current implementation is never resolved,
no safety gate runs, no deployment happens and the manifest is untouched. -/
theorem deployBeaconImpl_rejects_proxy_target (env : Env) (f : ContractFactory)
    (opts : Options) (m : Manifest) (ba : Address)
    (h : env.isProxy ba = true) :
    (deployBeaconImpl env f opts m (some ba)).result = .error (.notABeaconTarget ba)
    ∧ (deployBeaconImpl env f opts m (some ba)).trace
        = [Event.readValidations, Event.assertNotProxy ba]
    ∧ (deployBeaconImpl env f opts m (some ba)).manifest = m := by
  rw [deployBeaconImpl_eq_reject env f opts m ba h]
  exact ⟨rfl, rfl, rfl⟩

/-- Witness for C6: address 4 is a proxy in the concrete environment. -/
theorem deployBeaconImpl_rejects_proxy_target_witness :
    exEnv.isProxy 4 = true
    ∧ ((deployBeaconImpl exEnv exFactory exOpts exManifest (some 4)).result
        = .error (.notABeaconTarget 4)
      ∧ (deployBeaconImpl exEnv exFactory exOpts exManifest (some 4)).trace
          = [Event.readValidations, Event.assertNotProxy 4]
      ∧ (deployBeaconImpl exEnv exFactory exOpts exManifest (some 4)).manifest
          = exManifest) :=
  ⟨by decide,
   deployBeaconImpl_rejects_proxy_target exEnv exFactory exOpts exManifest 4
     (by decide)⟩

/-- C7: on a proxy run where an explicitly requested kind disagrees with the
kind detected for the target address, the run fails with
`ProxyKindMismatchError` and its trace is exactly the validations read and
the classification — no safety gate, no layout fetch and no deployment has
run, and the manifest is untouched. -/
theorem deployProxyImpl_kind_mismatch (env : Env) (f : ContractFactory)
    (opts : Options) (m : Manifest) (pa : Address) (k : ProxyKind)
    (hk : opts.kind = some k) (hne : k ≠ env.proxyKindAt pa) :
    (deployProxyImpl env f opts m (some pa)).result
      = .error (.proxyKindMismatch k (env.proxyKindAt pa))
    ∧ (deployProxyImpl env f opts m (some pa)).trace
        = [Event.readValidations, Event.processProxyKind (some pa)]
    ∧ (deployProxyImpl env f opts m (some pa)).manifest = m := by
  have hpk : processProxyKind env (some pa) opts
      = .error (.proxyKindMismatch k (env.proxyKindAt pa)) := by
    simp [processProxyKind, hk, hne]
  rw [deployProxyImpl_eq_kindErr env f opts m (some pa) _ hpk]
  exact ⟨rfl, rfl, rfl⟩

/-- Witness for C7: uups is requested while the target is classified
transparent. -/
theorem deployProxyImpl_kind_mismatch_witness :
    exOptsUups.kind = some ProxyKind.uups
    ∧ ProxyKind.uups ≠ exEnv.proxyKindAt 5
    ∧ ((deployProxyImpl exEnv exFactory exOptsUups exManifest (some 5)).result
        = .error (.proxyKindMismatch ProxyKind.uups (exEnv.proxyKindAt 5))
      ∧ (deployProxyImpl exEnv exFactory exOptsUups exManifest (some 5)).trace
          = [Event.readValidations, Event.processProxyKind (some 5)]
      ∧ (deployProxyImpl exEnv exFactory exOptsUups exManifest (some 5)).manifest
          = exManifest) :=
  ⟨by decide, by decide,
   deployProxyImpl_kind_mismatch exEnv exFactory exOptsUups exManifest 5
     ProxyKind.uups (by decide) (by decide)⟩

/-- C8: the version `getDeployData` derives is a pure, deterministic function
of the validations, the factory and the constructor arguments: two runs
whose environments agree on the validations snapshot — but may differ in all
provider reads, manifest state and deploy results — and whose options agree
on `constructorArgs` produce the same `Version`. -/
theorem getDeployData_version_pure (env1 env2 : Env) (f : ContractFactory)
    (opts1 opts2 : Options)
    (hval : env1.validations = env2.validations)
    (hargs : opts1.constructorArgs = opts2.constructorArgs) :
    (getDeployData env1 f opts1).version = (getDeployData env2 f opts2).version := by
  simp only [getDeployData, getUnlinkedBytecode, hval, hargs]

/-- Witness for C8: the same version is derived under two environments with
different network state and under options differing outside
`constructorArgs`. -/
theorem getDeployData_version_pure_witness :
    exEnv.validations = exEnv2.validations
    ∧ exOpts.constructorArgs = exOptsSkip.constructorArgs
    ∧ (getDeployData exEnv exFactory exOpts).version
        = (getDeployData exEnv2 exFactory exOptsSkip).version :=
  ⟨rfl, rfl,
   getDeployData_version_pure exEnv exEnv2 exFactory exOpts exOptsSkip rfl rfl⟩

end DeployImpl

namespace DeployImpl

theorem deployImpl_fresh_frame (env : Env) (dd : DeployData) (f : ContractFactory)
    (opts : Options) (m : Manifest) :
    Event.manifestForNetwork ∉ (deployImpl env dd f opts m none).trace
    ∧ (∀ a, Event.getStorageLayoutForAddress a
        ∉ (deployImpl env dd f opts m none).trace)
    ∧ (∀ o n, Event.assertStorageUpgradeSafe o n
        ∉ (deployImpl env dd f opts m none).trace)
    ∧ (∀ a, Event.assertNotProxy a ∉ (deployImpl env dd f opts m none).trace)
    ∧ Event.assertUpgradeSafe ∈ (deployImpl env dd f opts m none).trace := by
  by_cases hv : upgradeSafetyViolations dd.validations dd.version dd.fullOpts = []
  · rw [deployImpl_eq_fresh env dd f opts m hv]
    refine ⟨?_, fun a => ?_, fun o n => ?_, fun a => ?_, by simp⟩
    · intro hmem
      simp at hmem
      rcases finishDeploy_trace_mem env dd f opts m _ hmem with h | h | h <;> simp at h
    · intro hmem
      simp at hmem
      rcases finishDeploy_trace_mem env dd f opts m _ hmem with h | h | h <;> simp at h
    · intro hmem
      simp at hmem
      rcases finishDeploy_trace_mem env dd f opts m _ hmem with h | h | h <;> simp at h
    · intro hmem
      simp at hmem
      rcases finishDeploy_trace_mem env dd f opts m _ hmem with h | h | h <;> simp at h
  · rw [deployImpl_eq_gateFail env dd f opts m none hv]
    exact ⟨by simp, fun a => by simp, fun o n => by simp, fun a => by simp, by simp⟩

/-- C9: a fresh (non-upgrade) invocation — proxy or beacon entry point with no
target address — never opens the manifest for a layout read, never invokes
`getStorageLayoutForAddress`, never invokes `assertStorageUpgradeSafe` and
never runs the not-a-proxy assertion, whatever the options say; the only
safety gate such a run ever executes is `assertUpgradeSafe`, which always
runs. -/
theorem fresh_deploy_frame (env : Env) (f : ContractFactory) (opts : Options)
    (m : Manifest) :
    (Event.manifestForNetwork ∉ (deployProxyImpl env f opts m none).trace
     ∧ (∀ a, Event.getStorageLayoutForAddress a
          ∉ (deployProxyImpl env f opts m none).trace)
     ∧ (∀ o n, Event.assertStorageUpgradeSafe o n
          ∉ (deployProxyImpl env f opts m none).trace)
     ∧ (∀ a, Event.assertNotProxy a ∉ (deployProxyImpl env f opts m none).trace)
     ∧ Event.assertUpgradeSafe ∈ (deployProxyImpl env f opts m none).trace)
    ∧ (Event.manifestForNetwork ∉ (deployBeaconImpl env f opts m none).trace
     ∧ (∀ a, Event.getStorageLayoutForAddress a
          ∉ (deployBeaconImpl env f opts m none).trace)
     ∧ (∀ o n, Event.assertStorageUpgradeSafe o n
          ∉ (deployBeaconImpl env f opts m none).trace)
     ∧ (∀ a, Event.assertNotProxy a ∉ (deployBeaconImpl env f opts m none).trace)
     ∧ Event.assertUpgradeSafe ∈ (deployBeaconImpl env f opts m none).trace) := by
  constructor
  · have H := deployImpl_fresh_frame env (getDeployData env f opts) f
      { opts with kind := some (opts.kind.getD ProxyKind.transparent) } m
    rw [deployProxyImpl_eq_fresh env f opts m]
    refine ⟨?_, fun a => ?_, fun o n => ?_, fun a => ?_, ?_⟩
    · intro hmem
      simp at hmem
      exact H.1 hmem
    · intro hmem
      simp at hmem
      exact H.2.1 a hmem
    · intro hmem
      simp at hmem
      exact H.2.2.1 o n hmem
    · intro hmem
      simp at hmem
      exact H.2.2.2.1 a hmem
    · simp
      exact H.2.2.2.2
  · have H := deployImpl_fresh_frame env (getDeployData env f opts) f opts m
    rw [deployBeaconImpl_eq_fresh env f opts m]
    refine ⟨?_, fun a => ?_, fun o n => ?_, fun a => ?_, ?_⟩
    · intro hmem
      simp at hmem
      exact H.1 hmem
    · intro hmem
      simp at hmem
      exact H.2.1 a hmem
    · intro hmem
      simp at hmem
      exact H.2.2.1 o n hmem
    · intro hmem
      simp at hmem
      exact H.2.2.2.1 a hmem
    · simp
      exact H.2.2.2.2

theorem finishDeploy_callback_manifest (env : Env) (dd : DeployData)
    (f : ContractFactory) (opts : Options) (m : Manifest)
    (h : Event.deployCallback ∈ (finishDeploy env dd f opts m).trace) :
    (finishDeploy env dd f opts m).manifest
      = insertRecord m dd.version (mkDeploymentRecord env dd f) := by
  unfold finishDeploy at h ⊢
  revert h
  cases lookupVersion m dd.version <;> intro h <;> simp at h ⊢

theorem deployImpl_callback_manifest (env : Env) (dd : DeployData)
    (f : ContractFactory) (opts : Options) (m : Manifest) (cur : Option Address)
    (h : Event.deployCallback ∈ (deployImpl env dd f opts m cur).trace) :
    (deployImpl env dd f opts m cur).manifest
      = insertRecord m dd.version (mkDeploymentRecord env dd f) := by
  by_cases hv : upgradeSafetyViolations dd.validations dd.version dd.fullOpts = []
  · cases cur with
    | none =>
      rw [deployImpl_eq_fresh env dd f opts m hv] at h ⊢
      simp at h ⊢
      exact finishDeploy_callback_manifest env dd f opts m h
    | some a =>
      cases hsl : getStorageLayoutForAddress m dd.validations a with
      | error e2 =>
        rw [deployImpl_eq_layoutErr env dd f opts m a e2 hv hsl] at h
        simp at h
      | ok l =>
        by_cases hskip : opts.unsafeSkipStorageCheck = true
        · rw [deployImpl_eq_skip env dd f opts m a l hv hsl hskip] at h ⊢
          simp at h ⊢
          exact finishDeploy_callback_manifest env dd f opts m h
        · have hskip2 : opts.unsafeSkipStorageCheck = false := by simpa using hskip
          by_cases hinc : env.storageIncompat l dd.layout dd.fullOpts = []
          · rw [deployImpl_eq_checked env dd f opts m a l hv hsl hskip2 hinc] at h ⊢
            simp at h ⊢
            exact finishDeploy_callback_manifest env dd f opts m h
          · rw [deployImpl_eq_storageFail env dd f opts m a l hv hsl hskip2 hinc] at h
            simp at h
  · rw [deployImpl_eq_gateFail env dd f opts m cur hv] at h
    simp at h

/-- C10: whenever the cache misses and the deploy callback runs during a
proxy-entry invocation, the record inserted into the manifest — keyed by the
candidate version — carries exactly the candidate implementation's storage
layout computed by `getStorageLayout` in `getDeployData`, together with the
factory's minimal-format ABI. -/
theorem deploy_records_candidate_layout (env : Env) (f : ContractFactory)
    (opts : Options) (m : Manifest) (target : Option Address)
    (h : Event.deployCallback ∈ (deployProxyImpl env f opts m target).trace) :
    ∃ rec, (deployProxyImpl env f opts m target).manifest
        = insertRecord m (getDeployData env f opts).version rec
      ∧ rec.layout = getStorageLayout env.validations (getDeployData env f opts).version
      ∧ rec.abi = f.formatMinimal := by
  cases hpk : processProxyKind env target opts with
  | error e =>
    rw [deployProxyImpl_eq_kindErr env f opts m target e hpk] at h
    simp at h
  | ok k =>
    cases target with
    | some pa =>
      rw [deployProxyImpl_eq_upgrade env f opts m pa k hpk] at h ⊢
      simp at h ⊢
      exact ⟨mkDeploymentRecord env (getDeployData env f opts) f,
        deployImpl_callback_manifest env (getDeployData env f opts) f
          { opts with kind := some k } m (some (env.implOfProxy pa)) h,
        rfl, rfl⟩
    | none =>
      rw [deployProxyImpl_eq_fresh env f opts m] at h ⊢
      simp at h ⊢
      exact ⟨mkDeploymentRecord env (getDeployData env f opts) f,
        deployImpl_callback_manifest env (getDeployData env f opts) f
          { opts with kind := some (opts.kind.getD ProxyKind.transparent) } m none h,
        rfl, rfl⟩

/-- Witness for C10 at a concrete upgrade input whose cache misses. -/
theorem deploy_records_candidate_layout_witness :
    Event.deployCallback
        ∈ (deployProxyImpl exEnv exFactory exOpts exManifest (some 5)).trace
    ∧ ∃ rec, (deployProxyImpl exEnv exFactory exOpts exManifest (some 5)).manifest
        = insertRecord exManifest (getDeployData exEnv exFactory exOpts).version rec
      ∧ rec.layout
          = getStorageLayout exEnv.validations (getDeployData exEnv exFactory exOpts).version
      ∧ rec.abi = exFactory.formatMinimal :=
  ⟨by decide,
   deploy_records_candidate_layout exEnv exFactory exOpts exManifest (some 5)
     (by decide)⟩

end DeployImpl

namespace DeployImpl

theorem finishDeploy_manifest_cases (env : Env) (dd : DeployData)
    (f : ContractFactory) (opts : Options) (m : Manifest) :
    (finishDeploy env dd f opts m).manifest = m
    ∨ (finishDeploy env dd f opts m).manifest
        = insertRecord m dd.version (mkDeploymentRecord env dd f) := by
  unfold finishDeploy
  cases lookupVersion m dd.version <;> simp

/-- C4: running the orchestrator `deployImpl` a second time with identical
inputs, against the manifest state left by a first successful run, performs
no further deployment: the second run returns the same result (the stored
record's address and transaction data), leaves the manifest unchanged, and
never invokes the deploy callback — while the first run, when the version
was not yet recorded, invoked it exactly once. -/
theorem deployImpl_idempotent (env : Env) (dd : DeployData) (f : ContractFactory)
    (opts : Options) (m : Manifest) (cur : Option Address) (d : DeployedImpl)
    (h : (deployImpl env dd f opts m cur).result = .ok d) :
    (deployImpl env dd f opts (deployImpl env dd f opts m cur).manifest cur).result
      = (deployImpl env dd f opts m cur).result
    ∧ (deployImpl env dd f opts (deployImpl env dd f opts m cur).manifest cur).manifest
      = (deployImpl env dd f opts m cur).manifest
    ∧ Event.deployCallback
        ∉ (deployImpl env dd f opts (deployImpl env dd f opts m cur).manifest cur).trace
    ∧ (lookupVersion m dd.version = none →
        (deployImpl env dd f opts m cur).trace.count Event.deployCallback = 1) := by
  obtain ⟨Hres, Hman, Hcb⟩ := finishDeploy_second_run env dd f opts m
  by_cases hv : upgradeSafetyViolations dd.validations dd.version dd.fullOpts = []
  · cases cur with
    | none =>
      rw [deployImpl_eq_fresh env dd f opts m hv]
      dsimp only
      rw [deployImpl_eq_fresh env dd f opts ((finishDeploy env dd f opts m).manifest) hv]
      dsimp only
      refine ⟨Hres, Hman, ?_, ?_⟩
      · intro hmem
        simp at hmem
        exact Hcb hmem
      · intro hl
        rw [finishDeploy_eq_miss env dd f opts m hl]
        rfl
    | some a =>
      cases hsl : getStorageLayoutForAddress m dd.validations a with
      | error e2 =>
        rw [deployImpl_eq_layoutErr env dd f opts m a e2 hv hsl] at h
        simp at h
      | ok l =>
        have hsl2 : getStorageLayoutForAddress (finishDeploy env dd f opts m).manifest
            dd.validations a = .ok l := by
          rcases finishDeploy_manifest_cases env dd f opts m with hm1 | hm1
          · rw [hm1]
            exact hsl
          · rw [hm1]
            exact getStorageLayoutForAddress_insert m dd.validations a dd.version
              (mkDeploymentRecord env dd f) l hsl
        by_cases hskip : opts.unsafeSkipStorageCheck = true
        · rw [deployImpl_eq_skip env dd f opts m a l hv hsl hskip]
          dsimp only
          rw [deployImpl_eq_skip env dd f opts ((finishDeploy env dd f opts m).manifest)
            a l hv hsl2 hskip]
          dsimp only
          refine ⟨Hres, Hman, ?_, ?_⟩
          · intro hmem
            simp at hmem
            exact Hcb hmem
          · intro hl
            rw [finishDeploy_eq_miss env dd f opts m hl]
            rfl
        · have hskip2 : opts.unsafeSkipStorageCheck = false := by simpa using hskip
          by_cases hinc : env.storageIncompat l dd.layout dd.fullOpts = []
          · rw [deployImpl_eq_checked env dd f opts m a l hv hsl hskip2 hinc]
            dsimp only
            rw [deployImpl_eq_checked env dd f opts
              ((finishDeploy env dd f opts m).manifest) a l hv hsl2 hskip2 hinc]
            dsimp only
            refine ⟨Hres, Hman, ?_, ?_⟩
            · intro hmem
              simp at hmem
              exact Hcb hmem
            · intro hl
              rw [finishDeploy_eq_miss env dd f opts m hl]
              rfl
          · rw [deployImpl_eq_storageFail env dd f opts m a l hv hsl hskip2 hinc] at h
            simp at h
  · rw [deployImpl_eq_gateFail env dd f opts m cur hv] at h
    simp at h

/-- Witness for C4 at a concrete upgrade input: the first run deploys once,
the second returns the cached record with no callback. -/
theorem deployImpl_idempotent_witness :
    (deployImpl exEnv (getDeployData exEnv exFactory exOpts) exFactory exOpts
        exManifest (some 105)).result = .ok ⟨42, none, none⟩
    ∧ ((deployImpl exEnv (getDeployData exEnv exFactory exOpts) exFactory exOpts
          (deployImpl exEnv (getDeployData exEnv exFactory exOpts) exFactory exOpts
            exManifest (some 105)).manifest (some 105)).result
        = (deployImpl exEnv (getDeployData exEnv exFactory exOpts) exFactory exOpts
            exManifest (some 105)).result
      ∧ (deployImpl exEnv (getDeployData exEnv exFactory exOpts) exFactory exOpts
          (deployImpl exEnv (getDeployData exEnv exFactory exOpts) exFactory exOpts
            exManifest (some 105)).manifest (some 105)).manifest
        = (deployImpl exEnv (getDeployData exEnv exFactory exOpts) exFactory exOpts
            exManifest (some 105)).manifest
      ∧ Event.deployCallback
          ∉ (deployImpl exEnv (getDeployData exEnv exFactory exOpts) exFactory exOpts
              (deployImpl exEnv (getDeployData exEnv exFactory exOpts) exFactory exOpts
                exManifest (some 105)).manifest (some 105)).trace
      ∧ (lookupVersion exManifest (getDeployData exEnv exFactory exOpts).version = none →
          (deployImpl exEnv (getDeployData exEnv exFactory exOpts) exFactory exOpts
            exManifest (some 105)).trace.count Event.deployCallback = 1)) :=
  ⟨by rfl,
   deployImpl_idempotent exEnv (getDeployData exEnv exFactory exOpts) exFactory
     exOpts exManifest (some 105) ⟨42, none, none⟩ (by rfl)⟩

end DeployImpl
